import Mathlib

/-!
Verification of the Pinger repository (two Go variants of a stop-and-wait
ICMP echo client) against its natural-language specification.

The repository has two source files:
* `src/main.go` — the IPv4-only variant, embedded below in namespace `V4`;
* `src/unnamed/part_000` — the dual IPv4/IPv6 variant, embedded in
  namespace `Dual`.

Both variants share a byte-identical wire codec (`timeToBytes`,
`bytesToTime`), embedded once at top level.

Modelling conventions:
* Go `int64` arithmetic wraps modulo 2^64 into the range [-2^63, 2^63);
  `wrap64` performs exactly that reduction.
* Go's `/` and `%` on integers truncate toward zero; they are embedded as
  `Int.tdiv` / `Int.tmod`.  Go's arithmetic right shift `>>` on a signed
  value is floor division, embedded as `Int.fdiv`.  Go's `&` with `0xff`
  takes the low byte of the two's-complement representation, which on the
  mathematical integer is `% 256` (Euclidean).
* A Go `time.Time` is modelled by `GoTime`, its seconds/nanoseconds pair;
  `instant` is the exact mathematical instant in nanoseconds since the
  epoch, and `unixNano` is Go's `Time.UnixNano`, which computes the same
  quantity with `int64` wrap-around.
* A Go index-out-of-range panic is modelled by `Option`: `bytesToTime`
  returns `none` exactly when the source would panic on `bytes[i]`.
-/

/-- Go `int64` wrap-around: reduce an integer into [-2^63, 2^63) modulo 2^64. -/
def wrap64 (x : Int) : Int := (x + 2 ^ 63) % 2 ^ 64 - 2 ^ 63

/-- A Go `time.Time`, reduced to its wall-clock seconds and nanoseconds
(`unixSec()` and `nsec()` in Go's internal representation). -/
structure GoTime where
  sec : Int
  nsec : Int
deriving DecidableEq

/-- The exact instant denoted by a `GoTime`, in nanoseconds since the Unix
epoch, as an unbounded integer.  Two Go times are equal (`Time.Equal`)
iff their instants are equal. -/
def instant (t : GoTime) : Int := t.sec * 1000000000 + t.nsec

/-- Go `Time.UnixNano()`: computes `sec*1e9 + nsec` in `int64` arithmetic,
i.e. the instant wrapped into the `int64` range. -/
def unixNano (t : GoTime) : Int := wrap64 (instant t)

/-- One byte of the encoder: `byte(0xff & (nsecs >> s))` from `timeToBytes`.
The Go shift on `int64` is arithmetic (floor division by `2^s`) and the
mask keeps the low 8 bits of the two's-complement representation. -/
def byteOf (n : Int) (s : Nat) : Nat := (Int.fdiv n (2 ^ s) % 256).toNat

/-- `timeToBytes` from the source (identical in both variants): the 8-byte
big-endian encoding of `t.UnixNano()`.  The loop writes
`bytes[i] = byte(0xff & (nsecs >> ((7-i)*8)))` for i = 0..7, so the
shifts are 56, 48, ..., 0. -/
def timeToBytes (t : GoTime) : List Nat :=
  let nsecs := unixNano t
  [byteOf nsecs 56, byteOf nsecs 48, byteOf nsecs 40, byteOf nsecs 32,
   byteOf nsecs 24, byteOf nsecs 16, byteOf nsecs 8, byteOf nsecs 0]

/-- The accumulator loop of `bytesToTime`:
`nsecs += int64(bytes[i]) << ((7-i)*8)` for i = 0..7, starting from 0,
with every shift and addition wrapping in `int64`. -/
def decodeNsecs (b0 b1 b2 b3 b4 b5 b6 b7 : Nat) : Int :=
  wrap64 (wrap64 (wrap64 (wrap64 (wrap64 (wrap64 (wrap64 (wrap64
    (0 + wrap64 ((b0 : Int) * 2 ^ 56))
    + wrap64 ((b1 : Int) * 2 ^ 48)) + wrap64 ((b2 : Int) * 2 ^ 40))
    + wrap64 ((b3 : Int) * 2 ^ 32)) + wrap64 ((b4 : Int) * 2 ^ 24))
    + wrap64 ((b5 : Int) * 2 ^ 16)) + wrap64 ((b6 : Int) * 2 ^ 8))
    + wrap64 ((b7 : Int) * 2 ^ 0))

/-- `bytesToTime` from the source (identical in both variants): reassemble
the 64-bit nanosecond count from `bytes[0..7]` and return
`time.Unix(nsecs/1e9, nsecs%1e9)` (Go division truncates toward zero).
The source indexes `bytes[0]` .. `bytes[7]` unconditionally, so an input
shorter than 8 bytes panics: that is the `none` branch here. -/
def bytesToTime : List Nat → Option GoTime
  | b0 :: b1 :: b2 :: b3 :: b4 :: b5 :: b6 :: b7 :: _ =>
    let n := decodeNsecs b0 b1 b2 b3 b4 b5 b6 b7
    some ⟨Int.tdiv n 1000000000, Int.tmod n 1000000000⟩
  | _ => none

theorem byteOf_cast (n : Int) (s : Nat) :
    ((byteOf n s : Nat) : Int) = n / 2 ^ s % 256 := by
  unfold byteOf
  rw [Int.fdiv_eq_ediv _ (by positivity)]
  exact Int.toNat_of_nonneg (Int.emod_nonneg _ (by norm_num))

theorem wrap64_wrap_left (a b : Int) : wrap64 (wrap64 a + b) = wrap64 (a + b) := by
  unfold wrap64; omega

theorem wrap64_wrap_right (a b : Int) : wrap64 (a + wrap64 b) = wrap64 (a + b) := by
  unfold wrap64; omega

theorem decodeNsecs_encode (m : Int) (h1 : -(2 ^ 63) ≤ m) (h2 : m < 2 ^ 63) :
    decodeNsecs (byteOf m 56) (byteOf m 48) (byteOf m 40) (byteOf m 32)
      (byteOf m 24) (byteOf m 16) (byteOf m 8) (byteOf m 0) = m := by
  unfold decodeNsecs
  simp only [wrap64_wrap_left, wrap64_wrap_right, byteOf_cast]
  unfold wrap64
  omega

theorem unixNano_eq_instant (t : GoTime) (h1 : -(2 ^ 63) ≤ instant t)
    (h2 : instant t < 2 ^ 63) : unixNano t = instant t := by
  unfold unixNano wrap64
  omega

/-- C5: for a time whose exact nanosecond instant lies in the *signed*
64-bit range, decoding the encoder's 8-byte big-endian payload yields the
same instant exactly: `bytesToTime (timeToBytes t)` denotes `t`. -/
theorem c5_roundtrip_int64 (t : GoTime) (h1 : -(2 ^ 63) ≤ instant t)
    (h2 : instant t < 2 ^ 63) :
    (bytesToTime (timeToBytes t)).map instant = some (instant t) := by
  have hd := Int.tdiv_add_tmod (instant t) 1000000000
  simp only [timeToBytes, unixNano_eq_instant t h1 h2, bytesToTime]
  rw [decodeNsecs_encode (instant t) h1 h2]
  simp only [Option.map_some', Option.some.injEq, instant]
  simp only [instant] at hd
  omega

theorem c5_roundtrip_int64_witness :
    -(2 ^ 63) ≤ instant ⟨1700000000, 123456789⟩ ∧
    instant ⟨1700000000, 123456789⟩ < 2 ^ 63 ∧
    (bytesToTime (timeToBytes ⟨1700000000, 123456789⟩)).map instant
      = some (instant ⟨1700000000, 123456789⟩) :=
  ⟨by decide, by decide,
   c5_roundtrip_int64 ⟨1700000000, 123456789⟩ (by decide) (by decide)⟩

/-- C5 counterexample: the time 2^63 nanoseconds after the epoch is
representable in 64 *unsigned* bits and is nanosecond-exact, yet
`UnixNano` wraps it to -2^63, so the decode of its encoding denotes the
instant -2^63, not 2^63: the round-trip fails outside the signed range. -/
theorem c5_unsigned64_roundtrip_fails :
    instant ⟨9223372036, 854775808⟩ = 2 ^ 63 ∧
    (0 : Int) ≤ 2 ^ 63 ∧ (2 ^ 63 : Int) < 2 ^ 64 ∧
    (bytesToTime (timeToBytes ⟨9223372036, 854775808⟩)).map instant
      = some (-(2 ^ 63)) ∧
    (-(2 ^ 63) : Int) ≠ 2 ^ 63 := by decide

/-- C9: the timestamp encoder is total and always returns exactly 8 bytes;
the decoder never reaches its out-of-bounds branch when given at least 8
bytes, and panics (modelled by `none`) exactly when given fewer. -/
theorem c9_codec_totality :
    (∀ t : GoTime, (timeToBytes t).length = 8) ∧
    (∀ bs : List Nat, 8 ≤ bs.length → (bytesToTime bs).isSome = true) ∧
    (∀ bs : List Nat, bs.length < 8 → bytesToTime bs = none) := by
  refine ⟨fun t => rfl, fun bs h => ?_, fun bs h => ?_⟩
  · match bs with
    | _ :: _ :: _ :: _ :: _ :: _ :: _ :: _ :: _ => rfl
    | [] | [_] | [_, _] | [_, _, _] | [_, _, _, _] | [_, _, _, _, _]
    | [_, _, _, _, _, _] | [_, _, _, _, _, _, _] => simp at h
  · match bs with
    | _ :: _ :: _ :: _ :: _ :: _ :: _ :: _ :: _ => simp at h; omega
    | [] | [_] | [_, _] | [_, _, _] | [_, _, _, _] | [_, _, _, _, _]
    | [_, _, _, _, _, _] | [_, _, _, _, _, _, _] => rfl

theorem c9_codec_totality_witness :
    (timeToBytes ⟨0, 0⟩).length = 8 ∧
    (8 ≤ ([0, 0, 0, 0, 0, 0, 0, 0] : List Nat).length ∧
      (bytesToTime [0, 0, 0, 0, 0, 0, 0, 0]).isSome = true) ∧
    (([0, 0, 0] : List Nat).length < 8 ∧ bytesToTime [0, 0, 0] = none) :=
  ⟨c9_codec_totality.1 ⟨0, 0⟩,
   ⟨by decide, c9_codec_totality.2.1 [0, 0, 0, 0, 0, 0, 0, 0] (by decide)⟩,
   ⟨by decide, c9_codec_totality.2.2 [0, 0, 0] (by decide)⟩⟩

/-- Observable effects of the control loop, in program order: reporter
output (`fmt.Printf` to stdout), timer operations, the inter-gap sleep and
transmission attempts (`WriteTo` with the marshalled id/seq/payload). -/
inductive Act
  | print (s : String)
  | timerStop
  | timerReset
  | sleep (d : Int)
  | send (id seq : Int) (payload : List Nat)
deriving DecidableEq

/-- The ICMP message types the two variants dispatch on
(`ipv4.ICMPTypeEchoReply`, `ipv6.ICMPTypeEchoReply`,
`ipv4.ICMPTypeTimeExceeded`, `ipv6.ICMPTypeTimeExceeded`, the outgoing
echo-request types, and anything else). -/
inductive IcmpType
  | v4EchoReply | v6EchoReply | v4TimeExceeded | v6TimeExceeded
  | v4Echo | v6EchoRequest | other
deriving DecidableEq

/-- The body of a parsed `icmp.Message`: an `*icmp.Echo` body carrying
identifier, sequence and payload, or any non-echo body. -/
inductive MsgBody
  | echo (id seq : Int) (data : List Nat)
  | nonEcho
deriving DecidableEq

/-- A parsed `icmp.Message`: its `Type` and `Body`. -/
structure IcmpMsg where
  type : IcmpType
  body : MsgBody
deriving DecidableEq

/-- Go `Time.Sub` (and hence `time.Since`): the difference of two instants
in nanoseconds, saturating at the `int64` `Duration` bounds on overflow. -/
def durSub (a b : Int) : Int :=
  if a - b < -(2 ^ 63) then -(2 ^ 63)
  else if 2 ^ 63 - 1 < a - b then 2 ^ 63 - 1
  else a - b

/-- Go `Duration.Milliseconds()`: `int64(d) / 1e6`, truncating toward 0. -/
def goMilliseconds (d : Int) : Int := Int.tdiv d 1000000

/-- Go `time.fmtFrac`'s digit loop: emits up to `prec` fractional digits of
`v` (least significant first, prepended), omitting trailing zeros; returns
the digits produced so far, whether anything was printed, and `v`
shifted right by the digits consumed. -/
def fmtFracAux : Nat → Nat → Bool → String × Bool × Nat
  | v, 0, pr => ("", pr, v)
  | v, p + 1, pr =>
    let d := v % 10
    let pr' := pr || d != 0
    let cur := if pr' then String.singleton (Char.ofNat (48 + d)) else ""
    let rest := fmtFracAux (v / 10) p pr'
    (rest.1 ++ cur, rest.2.1, rest.2.2)

/-- Go `time.fmtFrac`: fractional digits prefixed by `.` when nonempty,
plus the remaining integer part. -/
def fmtFrac (v : Nat) (prec : Nat) : String × Nat :=
  let r := fmtFracAux v prec false
  (if r.2.1 then "." ++ r.1 else "", r.2.2)

/-- Go `Duration.String()`, used by `fmt`'s `%v` verb on a `time.Duration`
(the IPv4-only variant prints the RTT this way). -/
def goDurationString (d : Int) : String :=
  let u : Nat := d.natAbs
  let neg : Bool := decide (d < 0)
  if u = 0 then "0s"
  else if u < 1000000000 then
    let pu : Nat × String :=
      if u < 1000 then (0, "ns")
      else if u < 1000000 then (3, "µs")
      else (6, "ms")
    let fr := fmtFrac u pu.1
    (if neg then "-" else "") ++ toString fr.2 ++ fr.1 ++ pu.2
  else
    let fr := fmtFrac u 9
    let u1 := fr.2
    let s0 := toString (u1 % 60) ++ fr.1 ++ "s"
    let s1 :=
      if u1 / 60 > 0 then
        let s' := toString (u1 / 60 % 60) ++ "m" ++ s0
        if u1 / 60 / 60 > 0 then toString (u1 / 60 / 60) ++ "h" ++ s' else s'
      else s0
    (if neg then "-" else "") ++ s1

/-- Naive substring test helpers (is `pat` a prefix of `s`?). -/
def hasPrefixL : List Char → List Char → Bool
  | [], _ => true
  | _ :: _, [] => false
  | c :: cs, d :: ds => c == d && hasPrefixL cs ds

/-- Does `pat` occur as a contiguous run inside the list? -/
def hasSubL (pat : List Char) : List Char → Bool
  | [] => hasPrefixL pat []
  | d :: ds => hasPrefixL pat (d :: ds) || hasSubL pat ds

/-- Does string `s` contain `pat` as a substring? -/
def strContains (s pat : String) : Bool := hasSubL pat.toList s.toList

/-- Transcribed from the spec's reporter contract, for comparison with the
code: `64 bytes from <ip>: icmp_seq=<n> ttl=<hopMetric> time=<rtt_ms>ms`,
one line per success outcome. -/
def SpecFormat.successLine (ip : String) (n hop ms : Int) : String :=
  "64 bytes from " ++ ip ++ ": icmp_seq=" ++ toString n ++ " ttl="
    ++ toString hop ++ " time=" ++ toString ms ++ "ms\n"

/-- What the receiver goroutines see on each blocking read, in arrival
order: a transport read error, a datagram that fails `icmp.ParseMessage`,
or a successfully parsed message with the control-message TTL/hop limit. -/
inductive ReadOutcome
  | readErr (e : String)
  | malformed (e : String)
  | parsed (m : IcmpMsg) (ttl : Int)
deriving DecidableEq

/-- `main`'s tail in both variants:
`if err := pingLoop(p, cn); err != nil { fmt.Println(err); os.Exit(1) }`,
followed by the implicit exit with status 0.  Returns the printed lines
and the process exit status. -/
def mainTail (r : Option String) : List Act × Nat :=
  match r with
  | some e => ([Act.print (e ++ "\n")], 1)
  | none => ([], 0)

/-- `PingProc` of the dual-stack variant (`src/unnamed/part_000`), with
`dst` modelled by its printed form `p.dst.IP.String()`; durations in ns. -/
structure Dual.PingProc where
  id : Int
  seqnum : Int
  dst : String
  isIPv6 : Bool
  ttl : Int
  rttLimit : Int
  interval : Int
deriving DecidableEq

/-- `newPingProc` of the dual-stack variant: the two `rand.Intn(1 << 16)`
draws are passed in as `id` and `seqnum`; `rttLimit` is 2s and `interval`
1s in nanoseconds. -/
def Dual.newPingProc (id seqnum : Int) (dst : String) (isIPv6 : Bool) (ttl : Int) :
    Dual.PingProc :=
  ⟨id, seqnum, dst, isIPv6, ttl, 2000000000, 1000000000⟩

/-- The dual-stack `recvResult` channel element: either a parsed message
with its TTL, or an error (the `err != nil` shape `{nil, -1, err}`). -/
inductive Dual.RecvResult
  | ok (msg : IcmpMsg) (ttl : Int)
  | fail (err : String)
deriving DecidableEq

/-- Which arm of the dual-stack loop's `select` fires: the timeout timer,
or a value from the receiver channel. -/
inductive Dual.Sel
  | timeout
  | recv (r : Dual.RecvResult)
deriving DecidableEq

/-- The `rtt` computed by the dual-stack `handleEchoReply`: starts at 0 and
is replaced by `time.Since(bytesToTime(body.Data))` only when both the
identifier and the sequence match; `none` models the decoder's panic on a
short payload in the matching branch. -/
def Dual.replyRtt (p : Dual.PingProc) (m : IcmpMsg) (now : GoTime) : Option Int :=
  match m.body with
  | .echo bid bseq data =>
    if bid == p.id && bseq == p.seqnum then
      (bytesToTime data).map (fun t0 => durSub (instant now) (instant t0))
    else some 0
  | .nonEcho => some 0

/-- `handleEchoReply` of the dual-stack variant: computes `rtt` (see
`Dual.replyRtt`) and then *unconditionally* prints the success-format
line with the session's current `seqnum`, the incoming TTL and
`rtt.Milliseconds()`. -/
def Dual.handleEchoReply (p : Dual.PingProc) (m : IcmpMsg) (ttl : Int) (now : GoTime) :
    Option (List Act) :=
  (Dual.replyRtt p m now).map (fun rtt =>
    [Act.print ("64 bytes from " ++ p.dst ++ ": icmp_seq=" ++ toString p.seqnum
      ++ " ttl=" ++ toString ttl ++ " time=" ++ toString (goMilliseconds rtt) ++ "ms\n")])

/-- `handleTimeExceeded` of the dual-stack variant. -/
def Dual.handleTimeExceeded (p : Dual.PingProc) : List Act :=
  [Act.print ("From " ++ p.dst ++ ": icmp_seq=" ++ toString p.seqnum
    ++ " Time exceeded: Hop limit\n")]

/-- `handleMsg` of the dual-stack variant: dispatch on the message type. -/
def Dual.handleMsg (p : Dual.PingProc) (m : IcmpMsg) (ttl : Int) (now : GoTime) :
    Option (List Act) :=
  match m.type with
  | .v4EchoReply => Dual.handleEchoReply p m ttl now
  | .v6EchoReply => Dual.handleEchoReply p m ttl now
  | .v4TimeExceeded => some (Dual.handleTimeExceeded p)
  | .v6TimeExceeded => some (Dual.handleTimeExceeded p)
  | _ => some [Act.print "Unexpected message type received."]

/-- `sendEcho` of the dual-stack variant: increments `seqnum` (Go `int`,
64-bit, hence `wrap64`), marshals id/new-seq/timestamp payload, attempts
the transmission, and wraps a transport error `e` in
`Send echo error: ...`.  Returns (actions, updated proc, returned error). -/
def Dual.sendEcho (p : Dual.PingProc) (now : GoTime) (e : Option String) :
    List Act × Dual.PingProc × Option String :=
  let p' := { p with seqnum := wrap64 (p.seqnum + 1) }
  ([Act.send p.id p'.seqnum (timeToBytes now)], p',
    e.map (fun msg => "Send echo error: " ++ msg))

/-- The `select` block of the dual-stack `pingLoop`: the timer arm prints
the unreachable line; the channel arm handles the message if `err == nil`
and otherwise prints the receive-error line.  `none` models a panic
inside `handleMsg`. -/
def Dual.selectActs (p : Dual.PingProc) (sel : Dual.Sel) (now : GoTime) :
    Option (List Act) :=
  match sel with
  | .timeout => some [Act.print ("unreachable: " ++ p.dst ++ ".\n")]
  | .recv (.ok m ttl) => Dual.handleMsg p m ttl now
  | .recv (.fail err) =>
    some [Act.print ("Error during message receiving: " ++ err ++ ".\n")]

/-- The tail of every dual-stack loop iteration: `timer.Reset` followed by
`sendEcho`; a send error is printed (`Send error: ...`) and breaks the
loop (the `Bool`). -/
def Dual.sendPart (p : Dual.PingProc) (now : GoTime) (e : Option String) :
    List Act × Dual.PingProc × Bool :=
  match Dual.sendEcho p now e with
  | (sa, p', some msg) =>
    (Act.timerReset :: sa ++ [Act.print ("Send error: " ++ msg ++ ".\n")], p', true)
  | (sa, p', none) => (Act.timerReset :: sa, p', false)

/-- One iteration of the dual-stack `pingLoop`'s `for`: the `select` arms,
then — only on the channel arm — `timer.Stop()` and
`time.Sleep(p.interval)`, then the reset-and-send tail. -/
def Dual.cycle (p : Dual.PingProc) (sel : Dual.Sel) (now : GoTime) (e : Option String) :
    Option (List Act × Dual.PingProc × Bool) :=
  (Dual.selectActs p sel now).map (fun a1 =>
    let pre := match sel with
      | .timeout => a1
      | .recv _ => a1 ++ [Act.timerStop, Act.sleep p.interval]
    let sp := Dual.sendPart p now e
    (pre ++ sp.1, sp.2.1, sp.2.2))

/-- Result of running a finite prefix of the dual-stack `pingLoop`:
the emitted actions, the final proc state, whether the loop terminated
(`break` on a send error), and — when it terminated — the value the Go
function returns (`return nil`). -/
structure Dual.RunOut where
  trace : List Act
  proc : Dual.PingProc
  done : Bool
  retval : Option String
deriving DecidableEq

/-- The dual-stack `for` loop over a finite prefix of select outcomes.
`o k` is the transport error (if any) of the k-th `WriteTo` attempt; the
attempt counter starts at 1 because attempt 0 is the pre-loop send. -/
def Dual.pingLoopAux (p : Dual.PingProc) (o : Nat → Option String) (k : Nat) :
    List (Dual.Sel × GoTime) → Option Dual.RunOut
  | [] => some ⟨[], p, false, none⟩
  | (sel, now) :: rest =>
    match Dual.cycle p sel now (o k) with
    | none => none
    | some (acts, p', brk) =>
      if brk then some ⟨acts ++ [Act.timerStop], p', true, none⟩
      else
        match Dual.pingLoopAux p' o (k + 1) rest with
        | none => none
        | some out => some ⟨acts ++ out.trace, out.proc, out.done, out.retval⟩

/-- `pingLoop` of the dual-stack variant: starts the receiver goroutine
(modelled separately by `Dual.recvEchoReply`), performs the initial
`p.sendEcho(cn)` whose returned error is **discarded**, arms the timer,
then runs the loop.  On `break` the trailing `timer.Stop()` runs and the
function returns `nil`. -/
def Dual.pingLoop (p0 : Dual.PingProc) (now0 : GoTime) (o : Nat → Option String)
    (evs : List (Dual.Sel × GoTime)) : Option Dual.RunOut :=
  let s0 := Dual.sendEcho p0 now0 (o 0)
  (Dual.pingLoopAux s0.2.1 o 1 evs).map (fun out =>
    ⟨s0.1 ++ out.trace, out.proc, out.done, out.retval⟩)

/-- `recvEchoReply` of the dual-stack variant, as a function from the
arrival sequence to the values sent on the channel: forwards every parsed
message with its TTL, but on the first read error or parse failure sends
one wrapped error and `return`s, ending the goroutine. -/
def Dual.recvEchoReply : List ReadOutcome → List Dual.RecvResult
  | [] => []
  | .readErr e :: _ => [.fail ("Send echo error: " ++ e)]
  | .malformed e :: _ => [.fail ("Send echo error: " ++ e)]
  | .parsed m ttl :: rest => .ok m ttl :: Dual.recvEchoReply rest

/-- `PingProc` of the IPv4-only variant (`src/main.go`): `rttLimit`
2000ms, `interval` 1300ms. -/
structure V4.PingProc where
  id : Int
  seqnum : Int
  dst : String
  rttLimit : Int
  interval : Int
deriving DecidableEq

/-- `newPingProc` of the IPv4-only variant. -/
def V4.newPingProc (id seqnum : Int) (dst : String) : V4.PingProc :=
  ⟨id, seqnum, dst, 2000000000, 1300000000⟩

/-- The IPv4-only `recvResult` channel element (`{bytes, err}`), after the
deterministic re-parse of the forwarded bytes by `handleRecv`: a parsed
echo message or an error. -/
inductive V4.RecvResult
  | ok (msg : IcmpMsg)
  | fail (err : String)
deriving DecidableEq

/-- Which arm of the IPv4-only loop's `select` fires. -/
inductive V4.Sel
  | timeout
  | recv (r : V4.RecvResult)
deriving DecidableEq

/-- `recvEchoReply` of the IPv4-only variant: read errors and parse
failures forward one wrapped error and `return`; a parsed message that is
not an echo reply forwards a `not echo reply message type` error but the
goroutine *continues*; echo replies are forwarded and the loop continues. -/
def V4.recvEchoReply : List ReadOutcome → List V4.RecvResult
  | [] => []
  | .readErr e :: _ => [.fail ("Send echo error: " ++ e)]
  | .malformed e :: _ => [.fail ("Send echo error: " ++ e)]
  | .parsed m _ :: rest =>
    match m.type with
    | .v4EchoReply => .ok m :: V4.recvEchoReply rest
    | _ => .fail "Send echo error: not echo reply message type" :: V4.recvEchoReply rest

/-- `handleRecv` of the IPv4-only variant: a failed re-parse prints
`Handle receive error: ...` (no newline) and returns; a non-echo body
returns silently; an echo body prints
`64 bytes from <ip>: time=<%v of rtt>` where `rtt` is nonzero only when
both identifier and sequence match (`none` models the decoder panic on a
short matching payload). -/
def V4.handleRecv (p : V4.PingProc) (r : V4.RecvResult) (now : GoTime) :
    Option (List Act) :=
  match r with
  | .fail e => some [Act.print ("Handle receive error: " ++ e)]
  | .ok m =>
    match m.body with
    | .nonEcho => some []
    | .echo bid bseq data =>
      if bid == p.id && bseq == p.seqnum then
        (bytesToTime data).map (fun t0 =>
          [Act.print ("64 bytes from " ++ p.dst ++ ": time="
            ++ goDurationString (durSub (instant now) (instant t0)) ++ "\n")])
      else
        some [Act.print ("64 bytes from " ++ p.dst ++ ": time="
          ++ goDurationString 0 ++ "\n")]

/-- `sendEcho` of the IPv4-only variant: does **not** touch `seqnum`;
marshals id/current-seq/timestamp and attempts the transmission. -/
def V4.sendEcho (p : V4.PingProc) (now : GoTime) (e : Option String) :
    List Act × Option String :=
  ([Act.send p.id p.seqnum (timeToBytes now)],
    e.map (fun msg => "Send echo error: " ++ msg))

/-- The `select` block of the IPv4-only `pingLoop`: the timer arm
increments `seqnum` and prints the unreachable line; the channel arm runs
`handleRecv` then `timer.Stop()` and `time.Sleep(p.interval)`. -/
def V4.selectActs (p : V4.PingProc) (sel : V4.Sel) (now : GoTime) :
    Option (List Act × V4.PingProc) :=
  match sel with
  | .timeout =>
    some ([Act.print ("unreachable: " ++ p.dst ++ ".\n")],
      { p with seqnum := wrap64 (p.seqnum + 1) })
  | .recv r =>
    (V4.handleRecv p r now).map
      (fun as => (as ++ [Act.timerStop, Act.sleep p.interval], p))

/-- The tail of every IPv4-only loop iteration: `timer.Reset` then
`sendEcho`; a send error breaks the loop without printing. -/
def V4.sendPart (p : V4.PingProc) (now : GoTime) (e : Option String) :
    List Act × Bool :=
  let s := V4.sendEcho p now e
  (Act.timerReset :: s.1, s.2.isSome)

/-- One iteration of the IPv4-only `pingLoop`'s `for`. -/
def V4.cycle (p : V4.PingProc) (sel : V4.Sel) (now : GoTime) (e : Option String) :
    Option (List Act × V4.PingProc × Bool) :=
  (V4.selectActs p sel now).map (fun step =>
    let sp := V4.sendPart step.2 now e
    (step.1 ++ sp.1, step.2, sp.2))

/-- Result of running a finite prefix of the IPv4-only `pingLoop`. -/
structure V4.RunOut where
  trace : List Act
  proc : V4.PingProc
  done : Bool
  retval : Option String
deriving DecidableEq

/-- The IPv4-only `for` loop over a finite prefix of select outcomes. -/
def V4.pingLoopAux (p : V4.PingProc) (o : Nat → Option String) (k : Nat) :
    List (V4.Sel × GoTime) → Option V4.RunOut
  | [] => some ⟨[], p, false, none⟩
  | (sel, now) :: rest =>
    match V4.cycle p sel now (o k) with
    | none => none
    | some (acts, p', brk) =>
      if brk then some ⟨acts ++ [Act.timerStop], p', true, none⟩
      else
        match V4.pingLoopAux p' o (k + 1) rest with
        | none => none
        | some out => some ⟨acts ++ out.trace, out.proc, out.done, out.retval⟩

/-- `pingLoop` of the IPv4-only variant: initial `p.sendEcho(cn)` with the
returned error **discarded** (and no seqnum change), then the loop. -/
def V4.pingLoop (p0 : V4.PingProc) (now0 : GoTime) (o : Nat → Option String)
    (evs : List (V4.Sel × GoTime)) : Option V4.RunOut :=
  let s0 := V4.sendEcho p0 now0 (o 0)
  (V4.pingLoopAux p0 o 1 evs).map (fun out =>
    ⟨s0.1 ++ out.trace, out.proc, out.done, out.retval⟩)

/-- Number of transmission attempts in a trace. -/
def countSends (l : List Act) : Nat :=
  l.countP (fun a => match a with | .send _ _ _ => true | _ => false)

/-- Does the trace contain an inter-gap sleep? -/
def hasSleep (l : List Act) : Bool :=
  l.any (fun a => match a with | .sleep _ => true | _ => false)

/-- Does the trace contain a `timer.Stop()`? -/
def hasTimerStop (l : List Act) : Bool :=
  l.any (fun a => match a with | .timerStop => true | _ => false)

/-- C1 (code bug): in the dual-stack variant, an echo reply whose sequence
(11) differs from the session's current seqnum (10) is **not** silently
ignored: `handleEchoReply` still prints the success-format line (with
rtt 0), the loop stops the timer, sleeps the inter-gap, and proceeds to
the next send — instead of remaining in `AWAITING_REPLY` with the timer
running. -/
theorem c1_mismatched_reply_not_ignored :
    Dual.cycle (Dual.newPingProc 5 10 "10.0.0.1" false 100)
        (Dual.Sel.recv (Dual.RecvResult.ok ⟨IcmpType.v4EchoReply, MsgBody.echo 5 11 []⟩ 64))
        ⟨0, 0⟩ none
      = some ([Act.print "64 bytes from 10.0.0.1: icmp_seq=10 ttl=64 time=0ms\n",
               Act.timerStop, Act.sleep 1000000000, Act.timerReset,
               Act.send 5 11 (timeToBytes ⟨0, 0⟩)],
              Dual.newPingProc 5 11 "10.0.0.1" false 100, false) := by decide

/-- C3 counterexample: the dual-stack receiver forwards a single wrapped
error for the first failed read and then terminates; a persistent failure
is *not* re-reported, and a datagram arriving after an error is never
forwarded. -/
theorem c3_receiver_stops_on_error :
    Dual.recvEchoReply [ReadOutcome.readErr "use of closed network connection",
        ReadOutcome.readErr "use of closed network connection"]
      = [Dual.RecvResult.fail "Send echo error: use of closed network connection"] ∧
    Dual.recvEchoReply [ReadOutcome.readErr "read failed",
        ReadOutcome.parsed ⟨IcmpType.v4EchoReply, MsgBody.echo 1 1 []⟩ 64]
      = [Dual.RecvResult.fail "Send echo error: read failed"] := ⟨rfl, rfl⟩

/-- C3 (amended): both receivers forward parsed traffic only up to the
first read error, then forward that one wrapped error and terminate (so a
persistent transport failure is reported exactly once, and later cycles
only time out); additionally, the IPv4-only receiver forwards a parsed
non-echo-reply message as an error *without* terminating. -/
theorem c3_receiver_until_first_error :
    (∀ (ms : List (IcmpMsg × Int)) (e : String) (rest : List ReadOutcome),
      Dual.recvEchoReply
          (ms.map (fun mt => ReadOutcome.parsed mt.1 mt.2) ++ ReadOutcome.readErr e :: rest)
        = ms.map (fun mt => Dual.RecvResult.ok mt.1 mt.2)
            ++ [Dual.RecvResult.fail ("Send echo error: " ++ e)]) ∧
    (∀ (bs : List MsgBody) (e : String) (rest : List ReadOutcome),
      V4.recvEchoReply
          (bs.map (fun b => ReadOutcome.parsed ⟨IcmpType.v4EchoReply, b⟩ 0)
            ++ ReadOutcome.readErr e :: rest)
        = bs.map (fun b => V4.RecvResult.ok ⟨IcmpType.v4EchoReply, b⟩)
            ++ [V4.RecvResult.fail ("Send echo error: " ++ e)]) ∧
    (∀ (m : IcmpMsg) (t : Int) (rest : List ReadOutcome),
      m.type ≠ IcmpType.v4EchoReply →
      V4.recvEchoReply (ReadOutcome.parsed m t :: rest)
        = V4.RecvResult.fail "Send echo error: not echo reply message type"
            :: V4.recvEchoReply rest) := by
  refine ⟨fun ms e rest => ?_, fun bs e rest => ?_, fun m t rest h => ?_⟩
  · induction ms with
    | nil => rfl
    | cons hd tl ih => simpa [Dual.recvEchoReply] using ih
  · induction bs with
    | nil => rfl
    | cons hd tl ih => simpa [V4.recvEchoReply] using ih
  · obtain ⟨ty, b⟩ := m
    cases ty <;> first | rfl | exact absurd rfl h

theorem c3_receiver_until_first_error_witness :
    V4.recvEchoReply [ReadOutcome.parsed ⟨IcmpType.v4TimeExceeded, MsgBody.nonEcho⟩ 7]
      = [V4.RecvResult.fail "Send echo error: not echo reply message type"] :=
  c3_receiver_until_first_error.2.2 ⟨IcmpType.v4TimeExceeded, MsgBody.nonEcho⟩ 7 [] (by decide)

theorem wrap64_idem (x : Int) : wrap64 (wrap64 x) = wrap64 x := by
  unfold wrap64; omega

theorem Dual.cycle_ok (p : Dual.PingProc) (sel : Dual.Sel) (now : GoTime)
    (out : List Act × Dual.PingProc × Bool)
    (h : Dual.cycle p sel now none = some out) :
    out.2.2 = false ∧ out.2.1.seqnum = wrap64 (p.seqnum + 1) := by
  rcases Option.map_eq_some'.mp h with ⟨a1, _, hf⟩
  rw [← hf]
  simp [Dual.sendPart, Dual.sendEcho]

theorem Dual.pingLoopAux_retval :
    ∀ (evs : List (Dual.Sel × GoTime)) (p : Dual.PingProc) (o : Nat → Option String)
      (k : Nat) (out : Dual.RunOut),
      Dual.pingLoopAux p o k evs = some out → out.retval = none := by
  intro evs
  induction evs with
  | nil =>
    intro p o k out h
    simp only [Dual.pingLoopAux, Option.some.injEq] at h
    rw [← h]
  | cons hd tl ih =>
    intro p o k out h
    obtain ⟨sel, now⟩ := hd
    simp only [Dual.pingLoopAux] at h
    cases hc : Dual.cycle p sel now (o k) with
    | none => rw [hc] at h; simp at h
    | some res =>
      obtain ⟨acts, p', brk⟩ := res
      rw [hc] at h
      cases brk with
      | true =>
        simp only [if_pos, Option.some.injEq] at h
        rw [← h]
      | false =>
        simp only [if_neg Bool.false_ne_true] at h
        cases haux : Dual.pingLoopAux p' o (k + 1) tl with
        | none => rw [haux] at h; simp at h
        | some out' =>
          rw [haux] at h
          simp only [Option.some.injEq] at h
          rw [← h]
          exact ih p' o (k + 1) out' haux

theorem Dual.pingLoopAux_seq :
    ∀ (evs : List (Dual.Sel × GoTime)) (p : Dual.PingProc) (o : Nat → Option String)
      (k : Nat) (out : Dual.RunOut), (∀ j, o j = none) →
      wrap64 p.seqnum = p.seqnum →
      Dual.pingLoopAux p o k evs = some out →
      out.done = false ∧ out.proc.seqnum = wrap64 (p.seqnum + evs.length) := by
  intro evs
  induction evs with
  | nil =>
    intro p o k out ho hp h
    simp only [Dual.pingLoopAux, Option.some.injEq] at h
    rw [← h]
    simpa using hp.symm
  | cons hd tl ih =>
    intro p o k out ho hp h
    obtain ⟨sel, now⟩ := hd
    simp only [Dual.pingLoopAux, ho k] at h
    cases hc : Dual.cycle p sel now none with
    | none => rw [hc] at h; simp at h
    | some res =>
      obtain ⟨acts, p', brk⟩ := res
      have hok := Dual.cycle_ok p sel now (acts, p', brk) hc
      simp only at hok
      rw [hc] at h
      rw [hok.1] at h
      simp only [if_neg Bool.false_ne_true] at h
      cases haux : Dual.pingLoopAux p' o (k + 1) tl with
      | none => rw [haux] at h; simp at h
      | some out' =>
        rw [haux] at h
        simp only [Option.some.injEq] at h
        rw [← h]
        have hp' : wrap64 p'.seqnum = p'.seqnum := by rw [hok.2]; exact wrap64_idem _
        have hih := ih p' o (k + 1) out' ho hp' haux
        refine ⟨hih.1, ?_⟩
        rw [hih.2, hok.2, wrap64_wrap_left]
        congr 1
        push_cast [List.length_cons]
        ring

/-- Number of timeout-terminated cycles in an event prefix. -/
def V4.countTimeouts (evs : List (V4.Sel × GoTime)) : Nat :=
  evs.countP (fun x => match x.1 with | V4.Sel.timeout => true | _ => false)

theorem V4.cycle_ok_timeout (p : V4.PingProc) (now : GoTime)
    (out : List Act × V4.PingProc × Bool)
    (h : V4.cycle p V4.Sel.timeout now none = some out) :
    out.2.2 = false ∧ out.2.1.seqnum = wrap64 (p.seqnum + 1) := by
  rcases Option.map_eq_some'.mp h with ⟨step, hs, hf⟩
  rw [← hf]
  simp only [V4.selectActs, Option.some.injEq] at hs
  rw [← hs]
  simp [V4.sendPart, V4.sendEcho]

theorem V4.cycle_ok_recv (p : V4.PingProc) (r : V4.RecvResult) (now : GoTime)
    (out : List Act × V4.PingProc × Bool)
    (h : V4.cycle p (V4.Sel.recv r) now none = some out) :
    out.2.2 = false ∧ out.2.1.seqnum = p.seqnum := by
  rcases Option.map_eq_some'.mp h with ⟨step, hs, hf⟩
  rw [← hf]
  simp only [V4.selectActs] at hs
  rcases Option.map_eq_some'.mp hs with ⟨as, _, hstep⟩
  rw [← hstep]
  simp [V4.sendPart, V4.sendEcho]

theorem V4.pingLoopAux_retval_v4 :
    ∀ (evs : List (V4.Sel × GoTime)) (p : V4.PingProc) (o : Nat → Option String)
      (k : Nat) (out : V4.RunOut),
      V4.pingLoopAux p o k evs = some out → out.retval = none := by
  intro evs
  induction evs with
  | nil =>
    intro p o k out h
    simp only [V4.pingLoopAux, Option.some.injEq] at h
    rw [← h]
  | cons hd tl ih =>
    intro p o k out h
    obtain ⟨sel, now⟩ := hd
    simp only [V4.pingLoopAux] at h
    cases hc : V4.cycle p sel now (o k) with
    | none => rw [hc] at h; simp at h
    | some res =>
      obtain ⟨acts, p', brk⟩ := res
      rw [hc] at h
      cases brk with
      | true =>
        simp only [if_pos, Option.some.injEq] at h
        rw [← h]
      | false =>
        simp only [if_neg Bool.false_ne_true] at h
        cases haux : V4.pingLoopAux p' o (k + 1) tl with
        | none => rw [haux] at h; simp at h
        | some out' =>
          rw [haux] at h
          simp only [Option.some.injEq] at h
          rw [← h]
          exact ih p' o (k + 1) out' haux

theorem V4.pingLoopAux_seq_v4 :
    ∀ (evs : List (V4.Sel × GoTime)) (p : V4.PingProc) (o : Nat → Option String)
      (k : Nat) (out : V4.RunOut), (∀ j, o j = none) →
      wrap64 p.seqnum = p.seqnum →
      V4.pingLoopAux p o k evs = some out →
      out.done = false ∧ out.proc.seqnum = wrap64 (p.seqnum + V4.countTimeouts evs) := by
  intro evs
  induction evs with
  | nil =>
    intro p o k out ho hp h
    simp only [V4.pingLoopAux, Option.some.injEq] at h
    rw [← h]
    simp only [V4.countTimeouts, List.countP_nil]
    simpa using hp.symm
  | cons hd tl ih =>
    intro p o k out ho hp h
    obtain ⟨sel, now⟩ := hd
    simp only [V4.pingLoopAux, ho k] at h
    cases hc : V4.cycle p sel now none with
    | none => rw [hc] at h; simp at h
    | some res =>
      obtain ⟨acts, p', brk⟩ := res
      have hok : brk = false ∧ p'.seqnum =
          (match sel with
            | V4.Sel.timeout => wrap64 (p.seqnum + 1)
            | V4.Sel.recv _ => p.seqnum) := by
        cases sel with
        | timeout => exact V4.cycle_ok_timeout p now (acts, p', brk) hc
        | recv r => exact V4.cycle_ok_recv p r now (acts, p', brk) hc
      rw [hc] at h
      rw [hok.1] at h
      simp only [if_neg Bool.false_ne_true] at h
      cases haux : V4.pingLoopAux p' o (k + 1) tl with
      | none => rw [haux] at h; simp at h
      | some out' =>
        rw [haux] at h
        simp only [Option.some.injEq] at h
        rw [← h]
        cases sel with
        | timeout =>
          simp only at hok
          have hp' : wrap64 p'.seqnum = p'.seqnum := by rw [hok.2]; exact wrap64_idem _
          have hih := ih p' o (k + 1) out' ho hp' haux
          refine ⟨hih.1, ?_⟩
          rw [hih.2, hok.2, wrap64_wrap_left]
          simp only [V4.countTimeouts, List.countP_cons]
          congr 1
          push_cast
          ring
        | recv r =>
          simp only at hok
          have hp' : wrap64 p'.seqnum = p'.seqnum := by rw [hok.2]; exact hp
          have hih := ih p' o (k + 1) out' ho hp' haux
          refine ⟨hih.1, ?_⟩
          rw [hih.2, hok.2]
          simp only [V4.countTimeouts, List.countP_cons]
          congr 2

/-- C2 (code bug): the dual-stack `pingLoop` can only ever return `nil` —
even when an in-loop send fails, the loop prints `Send error: ...`,
breaks, stops the timer and returns `nil`, so `main`'s
`if err != nil { fmt.Println(err); os.Exit(1) }` never fires and the
process exits with status 0. -/
theorem c2_loop_always_returns_nil :
    (∀ (p0 : Dual.PingProc) (now0 : GoTime) (o : Nat → Option String)
       (evs : List (Dual.Sel × GoTime)) (out : Dual.RunOut),
       Dual.pingLoop p0 now0 o evs = some out → out.retval = none) ∧
    (Dual.pingLoop (Dual.newPingProc 3 7 "8.8.8.8" false 100) ⟨0, 0⟩
        (fun k => if k = 1 then some "sendto: network is unreachable" else none)
        [(Dual.Sel.timeout, ⟨0, 0⟩)]).map
        (fun out => (out.done, out.retval,
          out.trace.contains
            (Act.print "Send error: Send echo error: sendto: network is unreachable.\n"),
          out.trace.getLast?))
      = some (true, none, true, some Act.timerStop) ∧
    mainTail none = ([], 0) := by
  refine ⟨fun p0 now0 o evs out h => ?_, by decide, rfl⟩
  simp only [Dual.pingLoop] at h
  rcases Option.map_eq_some'.mp h with ⟨out', haux, hmk⟩
  rw [← hmk]
  exact Dual.pingLoopAux_retval evs _ o 1 out' haux

theorem c2_loop_always_returns_nil_witness :
    (Dual.pingLoop (Dual.newPingProc 3 7 "8.8.8.8" false 100) ⟨0, 0⟩ (fun _ => none)
        []).map Dual.RunOut.retval = some none := by
  cases hr : Dual.pingLoop (Dual.newPingProc 3 7 "8.8.8.8" false 100) ⟨0, 0⟩
      (fun _ => none) [] with
  | none => exact absurd hr (by decide)
  | some out =>
    have := c2_loop_always_returns_nil.1 (Dual.newPingProc 3 7 "8.8.8.8" false 100)
      ⟨0, 0⟩ (fun _ => none) [] out hr
    simp [this]

/-- C7 (amended): in the dual-stack variant, after N completed cycles with
no send failure the seqnum equals the initial value + N + 1 in `int64`
arithmetic (the extra 1 comes from the pre-loop send; there is no
modulo-2^16 reduction of the field itself), independent of the mix of
timeouts and replies; in the IPv4-only variant it instead equals the
initial value plus the number of *timed-out* cycles. -/
theorem c7_seqnum_after_n_cycles :
    (∀ (p0 : Dual.PingProc) (now0 : GoTime) (o : Nat → Option String)
       (evs : List (Dual.Sel × GoTime)) (out : Dual.RunOut),
       (∀ j, o j = none) → Dual.pingLoop p0 now0 o evs = some out →
       out.proc.seqnum = wrap64 (p0.seqnum + 1 + evs.length)) ∧
    (∀ (p0 : V4.PingProc) (now0 : GoTime) (o : Nat → Option String)
       (evs : List (V4.Sel × GoTime)) (out : V4.RunOut),
       (∀ j, o j = none) → wrap64 p0.seqnum = p0.seqnum →
       V4.pingLoop p0 now0 o evs = some out →
       out.proc.seqnum = wrap64 (p0.seqnum + V4.countTimeouts evs)) := by
  constructor
  · intro p0 now0 o evs out ho h
    simp only [Dual.pingLoop] at h
    rcases Option.map_eq_some'.mp h with ⟨out', haux, hmk⟩
    have hp1 : wrap64 (Dual.sendEcho p0 now0 (o 0)).2.1.seqnum
        = (Dual.sendEcho p0 now0 (o 0)).2.1.seqnum := by
      simp [Dual.sendEcho, wrap64_idem]
    have hs := Dual.pingLoopAux_seq evs _ o 1 out' ho hp1 haux
    rw [← hmk]
    simp only
    rw [hs.2]
    simp only [Dual.sendEcho]
    rw [wrap64_wrap_left]
  · intro p0 now0 o evs out ho hp h
    simp only [V4.pingLoop] at h
    rcases Option.map_eq_some'.mp h with ⟨out', haux, hmk⟩
    have hs := V4.pingLoopAux_seq_v4 evs p0 o 1 out' ho hp haux
    rw [← hmk]
    simp only
    exact hs.2

theorem c7_seqnum_after_n_cycles_witness :
    (Dual.pingLoop (Dual.newPingProc 3 7 "8.8.8.8" false 100) ⟨0, 0⟩ (fun _ => none)
        [(Dual.Sel.timeout, ⟨0, 0⟩)]).map (fun out => out.proc.seqnum)
      = some (wrap64 (7 + 1 + 1)) ∧
    (V4.pingLoop (V4.newPingProc 3 7 "8.8.8.8") ⟨0, 0⟩ (fun _ => none)
        [(V4.Sel.timeout, ⟨0, 0⟩),
         (V4.Sel.recv (V4.RecvResult.fail "boom"), ⟨0, 0⟩)]).map
        (fun out => out.proc.seqnum)
      = some (wrap64 (7 + 1)) := by
  constructor
  · cases hr : Dual.pingLoop (Dual.newPingProc 3 7 "8.8.8.8" false 100) ⟨0, 0⟩
        (fun _ => none) [(Dual.Sel.timeout, ⟨0, 0⟩)] with
    | none => exact absurd hr (by decide)
    | some out =>
      have := c7_seqnum_after_n_cycles.1 (Dual.newPingProc 3 7 "8.8.8.8" false 100)
        ⟨0, 0⟩ (fun _ => none) [(Dual.Sel.timeout, ⟨0, 0⟩)] out (fun j => rfl) hr
      simp only [Option.map_some', this]
      rfl
  · cases hr : V4.pingLoop (V4.newPingProc 3 7 "8.8.8.8") ⟨0, 0⟩ (fun _ => none)
        [(V4.Sel.timeout, ⟨0, 0⟩), (V4.Sel.recv (V4.RecvResult.fail "boom"), ⟨0, 0⟩)] with
    | none => exact absurd hr (by decide)
    | some out =>
      have := c7_seqnum_after_n_cycles.2 (V4.newPingProc 3 7 "8.8.8.8")
        ⟨0, 0⟩ (fun _ => none)
        [(V4.Sel.timeout, ⟨0, 0⟩), (V4.Sel.recv (V4.RecvResult.fail "boom"), ⟨0, 0⟩)]
        out (fun j => rfl) (by decide) hr
      simp only [Option.map_some', this]
      rfl

/-- C7 counterexample: dual-stack session with initial seqnum 0; after one
completed cycle the seqnum is 2 (pre-loop send plus one cycle send), not
(0 + 1) mod 2^16 = 1 as the claim computes. -/
theorem c7_counterexample :
    (Dual.pingLoop (Dual.newPingProc 3 0 "8.8.8.8" false 100) ⟨0, 0⟩ (fun _ => none)
        [(Dual.Sel.timeout, ⟨0, 0⟩)]).map (fun out => out.proc.seqnum) = some 2 ∧
    ((0 : Int) + 1) % 2 ^ 16 = 1 ∧ (1 : Int) ≠ 2 := by decide

theorem countSends_append (l1 l2 : List Act) :
    countSends (l1 ++ l2) = countSends l1 + countSends l2 :=
  List.countP_append _ _ _

theorem countSends_cons_timerStop (l : List Act) :
    countSends (Act.timerStop :: l) = countSends l := by
  simp [countSends, List.countP_cons]

theorem countSends_cons_sleep (d : Int) (l : List Act) :
    countSends (Act.sleep d :: l) = countSends l := by
  simp [countSends, List.countP_cons]

theorem Dual.handleMsg_no_send (p : Dual.PingProc) (m : IcmpMsg) (ttl : Int)
    (now : GoTime) (as : List Act) (h : Dual.handleMsg p m ttl now = some as) :
    countSends as = 0 := by
  obtain ⟨ty, body⟩ := m
  cases ty <;> simp only [Dual.handleMsg, Option.some.injEq] at h
  case v4EchoReply | v6EchoReply =>
    rcases Option.map_eq_some'.mp h with ⟨rtt, _, has⟩
    rw [← has]; rfl
  all_goals (rw [← h]; rfl)

theorem Dual.selectActs_no_send (p : Dual.PingProc) (sel : Dual.Sel) (now : GoTime)
    (a1 : List Act) (h : Dual.selectActs p sel now = some a1) : countSends a1 = 0 := by
  cases sel with
  | timeout => simp only [Dual.selectActs, Option.some.injEq] at h; rw [← h]; rfl
  | recv r =>
    cases r with
    | ok m ttl => exact Dual.handleMsg_no_send p m ttl now a1 h
    | fail e => simp only [Dual.selectActs, Option.some.injEq] at h; rw [← h]; rfl

theorem Dual.sendPart_sends (p : Dual.PingProc) (now : GoTime) (e : Option String) :
    countSends (Dual.sendPart p now e).1 = 1 ∧
    (Dual.sendPart p now e).2.1.seqnum = wrap64 (p.seqnum + 1) := by
  cases e <;> simp [Dual.sendPart, Dual.sendEcho, countSends]

theorem V4.handleRecv_no_send (p : V4.PingProc) (r : V4.RecvResult) (now : GoTime)
    (as : List Act) (h : V4.handleRecv p r now = some as) : countSends as = 0 := by
  cases r with
  | fail e => simp only [V4.handleRecv, Option.some.injEq] at h; rw [← h]; rfl
  | ok m =>
    obtain ⟨ty, body⟩ := m
    cases body with
    | nonEcho => simp only [V4.handleRecv, Option.some.injEq] at h; rw [← h]; rfl
    | echo bid bseq data =>
      simp only [V4.handleRecv] at h
      by_cases hb : (bid == p.id && bseq == p.seqnum) = true
      · rw [if_pos hb] at h
        rcases Option.map_eq_some'.mp h with ⟨t0, _, has⟩
        rw [← has]; rfl
      · rw [if_neg hb] at h
        simp only [Option.some.injEq] at h
        rw [← h]; rfl

theorem V4.sendPart_sends_v4 (p : V4.PingProc) (now : GoTime) (e : Option String) :
    countSends (V4.sendPart p now e).1 = 1 := by
  cases e <;> simp [V4.sendPart, V4.sendEcho, countSends]

/-- C4 (amended): every dual-stack cycle makes exactly one transmission
attempt and increments `seqnum` exactly once (inside `sendEcho`),
whichever way the cycle ended; in the IPv4-only variant a reply-terminated
cycle transmits without any increment (the increment happens only in the
timeout arm), so increments and transmissions do not correspond there. -/
theorem c4_one_increment_per_send :
    (∀ (p : Dual.PingProc) (sel : Dual.Sel) (now : GoTime) (e : Option String)
       (out : List Act × Dual.PingProc × Bool), Dual.cycle p sel now e = some out →
       countSends out.1 = 1 ∧ out.2.1.seqnum = wrap64 (p.seqnum + 1)) ∧
    (∀ (p : V4.PingProc) (r : V4.RecvResult) (now : GoTime) (e : Option String)
       (out : List Act × V4.PingProc × Bool),
       V4.cycle p (V4.Sel.recv r) now e = some out →
       countSends out.1 = 1 ∧ out.2.1.seqnum = p.seqnum) ∧
    (∀ (p : V4.PingProc) (now : GoTime) (e : Option String)
       (out : List Act × V4.PingProc × Bool),
       V4.cycle p V4.Sel.timeout now e = some out →
       countSends out.1 = 1 ∧ out.2.1.seqnum = wrap64 (p.seqnum + 1)) := by
  refine ⟨fun p sel now e out h => ?_, fun p r now e out h => ?_, fun p now e out h => ?_⟩
  · rcases Option.map_eq_some'.mp h with ⟨a1, ha, hf⟩
    have h0 := Dual.selectActs_no_send p sel now a1 ha
    rw [← hf]
    refine ⟨?_, (Dual.sendPart_sends p now e).2⟩
    cases sel with
    | timeout => simp [countSends_append, h0, (Dual.sendPart_sends p now e).1]
    | recv r =>
      simp [countSends_append, h0, countSends_cons_timerStop, countSends_cons_sleep,
        (Dual.sendPart_sends p now e).1]
  · rcases Option.map_eq_some'.mp h with ⟨step, hs, hf⟩
    simp only [V4.selectActs] at hs
    rcases Option.map_eq_some'.mp hs with ⟨as, has, hstep⟩
    have h0 := V4.handleRecv_no_send p r now as has
    rw [← hf, ← hstep]
    refine ⟨?_, rfl⟩
    simp [countSends_append, h0, V4.sendPart_sends_v4]
    rfl
  · rcases Option.map_eq_some'.mp h with ⟨step, hs, hf⟩
    simp only [V4.selectActs, Option.some.injEq] at hs
    rw [← hf, ← hs]
    refine ⟨?_, rfl⟩
    simp [countSends_append, V4.sendPart_sends_v4]
    rfl

theorem c4_one_increment_per_send_witness :
    (Dual.cycle (Dual.newPingProc 3 7 "8.8.8.8" false 100) Dual.Sel.timeout ⟨0, 0⟩ none).map
        (fun out => (countSends out.1, out.2.1.seqnum)) = some (1, wrap64 (7 + 1)) ∧
    (V4.cycle (V4.newPingProc 3 7 "8.8.8.8")
        (V4.Sel.recv (V4.RecvResult.fail "boom")) ⟨0, 0⟩ none).map
        (fun out => (countSends out.1, out.2.1.seqnum)) = some (1, 7) ∧
    (V4.cycle (V4.newPingProc 3 7 "8.8.8.8") V4.Sel.timeout ⟨0, 0⟩ none).map
        (fun out => (countSends out.1, out.2.1.seqnum)) = some (1, wrap64 (7 + 1)) := by
  refine ⟨?_, ?_, ?_⟩
  · cases hr : Dual.cycle (Dual.newPingProc 3 7 "8.8.8.8" false 100)
        Dual.Sel.timeout ⟨0, 0⟩ none with
    | none => exact absurd hr (by decide)
    | some out =>
      have := c4_one_increment_per_send.1 (Dual.newPingProc 3 7 "8.8.8.8" false 100)
        Dual.Sel.timeout ⟨0, 0⟩ none out hr
      simp only [Option.map_some', this.1, this.2]
      rfl
  · cases hr : V4.cycle (V4.newPingProc 3 7 "8.8.8.8")
        (V4.Sel.recv (V4.RecvResult.fail "boom")) ⟨0, 0⟩ none with
    | none => exact absurd hr (by decide)
    | some out =>
      have := c4_one_increment_per_send.2.1 (V4.newPingProc 3 7 "8.8.8.8")
        (V4.RecvResult.fail "boom") ⟨0, 0⟩ none out hr
      simp only [Option.map_some', this.1, this.2]
      rfl
  · cases hr : V4.cycle (V4.newPingProc 3 7 "8.8.8.8") V4.Sel.timeout ⟨0, 0⟩ none with
    | none => exact absurd hr (by decide)
    | some out =>
      have := c4_one_increment_per_send.2.2 (V4.newPingProc 3 7 "8.8.8.8")
        ⟨0, 0⟩ none out hr
      simp only [Option.map_some', this.1, this.2]
      rfl

/-- C4 counterexample: an IPv4-only run whose single cycle ends in a
matched reply transmits two echo requests (the pre-loop send and the
post-reply send) while `seqnum` never changes: a send without any
increment, refuting increment-per-transmission for the session. -/
theorem c4_counterexample :
    (V4.pingLoop (V4.newPingProc 1 5 "1.2.3.4") ⟨0, 0⟩ (fun _ => none)
        [(V4.Sel.recv (V4.RecvResult.ok
            ⟨IcmpType.v4EchoReply, MsgBody.echo 1 5 (timeToBytes ⟨0, 0⟩)⟩), ⟨0, 0⟩)]).map
        (fun out => (countSends out.trace, out.proc.seqnum)) = some (2, 5) := by decide

/-- C6: in both variants, every cycle ending with a channel value (reply
*or* receive error) stops the timer and sleeps `interval` before the
reset-and-send tail, while a timeout cycle goes straight from the
unreachable report to the reset-and-send tail, with no sleep and no
timer stop. -/
theorem c6_intergap_asymmetry :
    (∀ (p : Dual.PingProc) (r : Dual.RecvResult) (now : GoTime) (e : Option String)
       (a1 : List Act), Dual.selectActs p (Dual.Sel.recv r) now = some a1 →
       Dual.cycle p (Dual.Sel.recv r) now e
         = some (a1 ++ [Act.timerStop, Act.sleep p.interval] ++ (Dual.sendPart p now e).1,
             (Dual.sendPart p now e).2.1, (Dual.sendPart p now e).2.2)) ∧
    (∀ (p : Dual.PingProc) (now : GoTime) (e : Option String)
       (out : List Act × Dual.PingProc × Bool),
       Dual.cycle p Dual.Sel.timeout now e = some out →
       out.1 = [Act.print ("unreachable: " ++ p.dst ++ ".\n")] ++ (Dual.sendPart p now e).1
         ∧ hasSleep out.1 = false ∧ hasTimerStop out.1 = false) ∧
    (∀ (p : V4.PingProc) (r : V4.RecvResult) (now : GoTime) (e : Option String)
       (as : List Act), V4.handleRecv p r now = some as →
       V4.cycle p (V4.Sel.recv r) now e
         = some (as ++ [Act.timerStop, Act.sleep p.interval] ++ (V4.sendPart p now e).1,
             p, (V4.sendPart p now e).2)) ∧
    (∀ (p : V4.PingProc) (now : GoTime) (e : Option String)
       (out : List Act × V4.PingProc × Bool),
       V4.cycle p V4.Sel.timeout now e = some out →
       out.1 = [Act.print ("unreachable: " ++ p.dst ++ ".\n")]
           ++ (V4.sendPart { p with seqnum := wrap64 (p.seqnum + 1) } now e).1
         ∧ hasSleep out.1 = false ∧ hasTimerStop out.1 = false) := by
  refine ⟨fun p r now e a1 ha => ?_, fun p now e out h => ?_,
    fun p r now e as ha => ?_, fun p now e out h => ?_⟩
  · simp only [Dual.cycle, ha, Option.map_some', List.append_assoc]
  · simp only [Dual.cycle, Dual.selectActs, Option.map_some', Option.some.injEq] at h
    rw [← h]
    refine ⟨rfl, ?_, ?_⟩ <;>
      cases e <;> simp [Dual.sendPart, Dual.sendEcho, hasSleep, hasTimerStop]
  · simp only [V4.cycle, V4.selectActs, ha, Option.map_some', List.append_assoc]
  · simp only [V4.cycle, V4.selectActs, Option.map_some', Option.some.injEq] at h
    rw [← h]
    refine ⟨rfl, ?_, ?_⟩ <;>
      cases e <;> simp [V4.sendPart, V4.sendEcho, hasSleep, hasTimerStop]

theorem c6_intergap_asymmetry_witness :
    Dual.cycle (Dual.newPingProc 3 7 "8.8.8.8" false 100)
        (Dual.Sel.recv (Dual.RecvResult.fail "boom")) ⟨0, 0⟩ none
      = some ([Act.print "Error during message receiving: boom.\n"]
            ++ [Act.timerStop, Act.sleep 1000000000]
            ++ (Dual.sendPart (Dual.newPingProc 3 7 "8.8.8.8" false 100) ⟨0, 0⟩ none).1,
          (Dual.sendPart (Dual.newPingProc 3 7 "8.8.8.8" false 100) ⟨0, 0⟩ none).2.1,
          (Dual.sendPart (Dual.newPingProc 3 7 "8.8.8.8" false 100) ⟨0, 0⟩ none).2.2) ∧
    (Dual.cycle (Dual.newPingProc 3 7 "8.8.8.8" false 100) Dual.Sel.timeout ⟨0, 0⟩
        none).map (fun out => (hasSleep out.1, hasTimerStop out.1)) = some (false, false) ∧
    V4.cycle (V4.newPingProc 3 7 "8.8.8.8")
        (V4.Sel.recv (V4.RecvResult.fail "boom")) ⟨0, 0⟩ none
      = some ([Act.print "Handle receive error: boom"]
            ++ [Act.timerStop, Act.sleep 1300000000]
            ++ (V4.sendPart (V4.newPingProc 3 7 "8.8.8.8") ⟨0, 0⟩ none).1,
          V4.newPingProc 3 7 "8.8.8.8",
          (V4.sendPart (V4.newPingProc 3 7 "8.8.8.8") ⟨0, 0⟩ none).2) ∧
    (V4.cycle (V4.newPingProc 3 7 "8.8.8.8") V4.Sel.timeout ⟨0, 0⟩ none).map
        (fun out => (hasSleep out.1, hasTimerStop out.1)) = some (false, false) := by
  refine ⟨?_, ?_, ?_, ?_⟩
  · exact c6_intergap_asymmetry.1 (Dual.newPingProc 3 7 "8.8.8.8" false 100)
      (Dual.RecvResult.fail "boom") ⟨0, 0⟩ none
      [Act.print "Error during message receiving: boom.\n"] rfl
  · cases hr : Dual.cycle (Dual.newPingProc 3 7 "8.8.8.8" false 100)
        Dual.Sel.timeout ⟨0, 0⟩ none with
    | none => exact absurd hr (by decide)
    | some out =>
      have := c6_intergap_asymmetry.2.1 (Dual.newPingProc 3 7 "8.8.8.8" false 100)
        ⟨0, 0⟩ none out hr
      simp only [Option.map_some', this.2.1, this.2.2]
  · exact c6_intergap_asymmetry.2.2.1 (V4.newPingProc 3 7 "8.8.8.8")
      (V4.RecvResult.fail "boom") ⟨0, 0⟩ none
      [Act.print "Handle receive error: boom"] rfl
  · cases hr : V4.cycle (V4.newPingProc 3 7 "8.8.8.8") V4.Sel.timeout ⟨0, 0⟩ none with
    | none => exact absurd hr (by decide)
    | some out =>
      have := c6_intergap_asymmetry.2.2.2 (V4.newPingProc 3 7 "8.8.8.8")
        ⟨0, 0⟩ none out hr
      simp only [Option.map_some', this.2.1, this.2.2]

theorem Dual.pingLoopAux_oracle :
    ∀ (evs : List (Dual.Sel × GoTime)) (p : Dual.PingProc)
      (o1 o2 : Nat → Option String) (k : Nat), (∀ j, k ≤ j → o1 j = o2 j) →
      Dual.pingLoopAux p o1 k evs = Dual.pingLoopAux p o2 k evs := by
  intro evs
  induction evs with
  | nil => intro p o1 o2 k h; rfl
  | cons hd tl ih =>
    intro p o1 o2 k h
    obtain ⟨sel, now⟩ := hd
    simp only [Dual.pingLoopAux]
    rw [h k (Nat.le_refl k)]
    cases Dual.cycle p sel now (o2 k) with
    | none => rfl
    | some res =>
      obtain ⟨acts, p', brk⟩ := res
      cases brk with
      | true => rfl
      | false =>
        simp only [if_neg Bool.false_ne_true]
        rw [ih p' o1 o2 (k + 1) (fun j hj => h j (by omega))]

theorem V4.pingLoopAux_oracle_v4 :
    ∀ (evs : List (V4.Sel × GoTime)) (p : V4.PingProc)
      (o1 o2 : Nat → Option String) (k : Nat), (∀ j, k ≤ j → o1 j = o2 j) →
      V4.pingLoopAux p o1 k evs = V4.pingLoopAux p o2 k evs := by
  intro evs
  induction evs with
  | nil => intro p o1 o2 k h; rfl
  | cons hd tl ih =>
    intro p o1 o2 k h
    obtain ⟨sel, now⟩ := hd
    simp only [V4.pingLoopAux]
    rw [h k (Nat.le_refl k)]
    cases V4.cycle p sel now (o2 k) with
    | none => rfl
    | some res =>
      obtain ⟨acts, p', brk⟩ := res
      cases brk with
      | true => rfl
      | false =>
        simp only [if_neg Bool.false_ne_true]
        rw [ih p' o1 o2 (k + 1) (fun j hj => h j (by omega))]

/-- C10: in both variants the pre-loop `p.sendEcho(cn)` return value is
discarded: any two transport behaviours that agree on every attempt from
1 on (i.e. may differ only on the initial send) produce identical runs,
so a failed first transmission does not terminate the session. -/
theorem c10_initial_send_error_discarded :
    (∀ (p0 : Dual.PingProc) (now0 : GoTime) (o1 o2 : Nat → Option String)
       (evs : List (Dual.Sel × GoTime)), (∀ k, 1 ≤ k → o1 k = o2 k) →
       Dual.pingLoop p0 now0 o1 evs = Dual.pingLoop p0 now0 o2 evs) ∧
    (∀ (p0 : V4.PingProc) (now0 : GoTime) (o1 o2 : Nat → Option String)
       (evs : List (V4.Sel × GoTime)), (∀ k, 1 ≤ k → o1 k = o2 k) →
       V4.pingLoop p0 now0 o1 evs = V4.pingLoop p0 now0 o2 evs) := by
  constructor
  · intro p0 now0 o1 o2 evs h
    simp only [Dual.pingLoop, Dual.sendEcho]
    rw [Dual.pingLoopAux_oracle evs _ o1 o2 1 h]
  · intro p0 now0 o1 o2 evs h
    simp only [V4.pingLoop, V4.sendEcho]
    rw [V4.pingLoopAux_oracle_v4 evs _ o1 o2 1 h]

theorem c10_initial_send_error_discarded_witness :
    Dual.pingLoop (Dual.newPingProc 3 7 "8.8.8.8" false 100) ⟨0, 0⟩
        (fun k => if k = 0 then some "sendto: operation not permitted" else none)
        [(Dual.Sel.timeout, ⟨0, 0⟩)]
      = Dual.pingLoop (Dual.newPingProc 3 7 "8.8.8.8" false 100) ⟨0, 0⟩
          (fun _ => none) [(Dual.Sel.timeout, ⟨0, 0⟩)] ∧
    V4.pingLoop (V4.newPingProc 3 7 "8.8.8.8") ⟨0, 0⟩
        (fun k => if k = 0 then some "sendto: operation not permitted" else none)
        [(V4.Sel.timeout, ⟨0, 0⟩)]
      = V4.pingLoop (V4.newPingProc 3 7 "8.8.8.8") ⟨0, 0⟩
          (fun _ => none) [(V4.Sel.timeout, ⟨0, 0⟩)] :=
  ⟨c10_initial_send_error_discarded.1 (Dual.newPingProc 3 7 "8.8.8.8" false 100)
      ⟨0, 0⟩ _ _ [(Dual.Sel.timeout, ⟨0, 0⟩)]
      (fun k hk => by have hne : k ≠ 0 := by omega
                      simp [hne]),
   c10_initial_send_error_discarded.2 (V4.newPingProc 3 7 "8.8.8.8")
      ⟨0, 0⟩ _ _ [(V4.Sel.timeout, ⟨0, 0⟩)]
      (fun k hk => by have hne : k ≠ 0 := by omega
                      simp [hne])⟩

/-- C8 (amended): the dual-stack variant's `handleEchoReply` emits exactly
one line of the spec's success format (current seqnum, incoming TTL, RTT
in whole milliseconds); the IPv4-only variant instead prints
`64 bytes from <ip>: time=<Duration>` with no `icmp_seq` or `ttl` field. -/
theorem c8_success_line_format :
    (∀ (p : Dual.PingProc) (m : IcmpMsg) (ttl : Int) (now : GoTime) (rtt : Int),
       Dual.replyRtt p m now = some rtt →
       Dual.handleEchoReply p m ttl now
         = some [Act.print (SpecFormat.successLine p.dst p.seqnum ttl
             (goMilliseconds rtt))]) ∧
    (∀ (p : V4.PingProc) (bid bseq : Int) (data : List Nat) (now t0 : GoTime),
       (bid == p.id && bseq == p.seqnum) = true → bytesToTime data = some t0 →
       V4.handleRecv p (V4.RecvResult.ok ⟨IcmpType.v4EchoReply, MsgBody.echo bid bseq data⟩) now
         = some [Act.print ("64 bytes from " ++ p.dst ++ ": time="
             ++ goDurationString (durSub (instant now) (instant t0)) ++ "\n")]) := by
  constructor
  · intro p m ttl now rtt h
    simp only [Dual.handleEchoReply, h, Option.map_some', SpecFormat.successLine]
  · intro p bid bseq data now t0 hb ht
    simp only [V4.handleRecv, if_pos hb, ht, Option.map_some']

set_option maxRecDepth 8000 in
theorem c8_success_line_format_witness :
    Dual.handleEchoReply (Dual.newPingProc 5 10 "10.0.0.1" false 100)
        ⟨IcmpType.v4EchoReply, MsgBody.echo 5 11 []⟩ 64 ⟨0, 0⟩
      = some [Act.print (SpecFormat.successLine "10.0.0.1" 10 64 (goMilliseconds 0))] ∧
    V4.handleRecv (V4.newPingProc 1 5 "1.2.3.4")
        (V4.RecvResult.ok ⟨IcmpType.v4EchoReply, MsgBody.echo 1 5 (timeToBytes ⟨0, 0⟩)⟩)
        ⟨0, 0⟩
      = some [Act.print ("64 bytes from 1.2.3.4: time="
          ++ goDurationString (durSub (instant ⟨0, 0⟩) (instant ⟨0, 0⟩)) ++ "\n")] :=
  ⟨c8_success_line_format.1 (Dual.newPingProc 5 10 "10.0.0.1" false 100)
      ⟨IcmpType.v4EchoReply, MsgBody.echo 5 11 []⟩ 64 ⟨0, 0⟩ 0 (by decide),
   c8_success_line_format.2 (V4.newPingProc 1 5 "1.2.3.4") 1 5 (timeToBytes ⟨0, 0⟩)
      ⟨0, 0⟩ ⟨0, 0⟩ (by decide) (by rfl)⟩

/-- C8 counterexample: a genuine success outcome in the IPv4-only variant
(identifier and sequence both match) is printed as
`64 bytes from 1.2.3.4: time=0s` — a line that does not even contain the
text `icmp_seq`, while every line of the claimed format does. -/
theorem c8_v4_line_lacks_fields :
    V4.handleRecv (V4.newPingProc 1 5 "1.2.3.4")
        (V4.RecvResult.ok ⟨IcmpType.v4EchoReply, MsgBody.echo 1 5 (timeToBytes ⟨0, 0⟩)⟩)
        ⟨0, 0⟩
      = some [Act.print "64 bytes from 1.2.3.4: time=0s\n"] ∧
    strContains (SpecFormat.successLine "1.2.3.4" 5 64 0) "icmp_seq" = true ∧
    strContains "64 bytes from 1.2.3.4: time=0s\n" "icmp_seq" = false := by decide
